import Mathlib

/-!
Verification of the AutoFit Tabs plugin (width calculation, recalculation
passes, the title-keyed width cache, the frame-coalesced adjustment queue,
the close-animation sequence and the settings input validation).

The definitions below are a shallow embedding of the TabManager /
settings-tab / plugin classes.  JavaScript numbers are modelled as ℚ
(settings values come from Number(...) and may be fractional); Math.ceil
is Int.ceil; the DOM tab-header element is modelled as a record of the
fields the plugin reads and writes; the title-keyed Map is modelled as an
association list with JavaScript Map semantics (set replaces in place,
insertion order preserved); text measurement (offsetWidth of the hidden
probe element) is an oracle function from title text to ℚ.
-/

/-- Settings record of the plugin (types.ts / PluginSettings).  The manager
also reads `ignoreWebLinks` through the index signature, so it is included. -/
structure PluginSettings where
  minWidth : ℚ
  leftPadding : ℚ
  closeButtonLeftPadding : ℚ
  closeButtonRightPadding : ℚ
  transitionDuration : ℚ
  iconWidth : ℚ
  maxWidth : ℚ
  ignorePinnedTabs : Bool
  hideTabIcons : Bool
  ignoreWebLinks : Bool
deriving DecidableEq

/-- A tab header DOM element, reduced to the fields the plugin reads
(title text, active/pinned/webviewer status, container visibility,
icon-loading class) and writes (autofit classes and the --header-width
style property).  `title?` is `none` when the
`.workspace-tab-header-inner-title` element is missing. -/
structure Header where
  title? : Option String
  isActive : Bool
  isPinned : Bool
  isWebviewer : Bool
  isVisible : Bool
  iconLoading : Bool
  autofitTab : Bool
  autofitMaxWidth : Bool
  headerWidth : Option ℚ
deriving DecidableEq

/-- measureTextWidth: Math.ceil(measureElement.offsetWidth) + 5, where the
probe's offsetWidth for the given text is supplied by the measure oracle. -/
def measureTextWidth (offsetWidth : ℚ) : ℚ :=
  ((⌈offsetWidth⌉ : ℤ) : ℚ) + 5

/-- getHeaderKey: textContent of the title element, or the empty string. -/
def getHeaderKey (h : Header) : String :=
  h.title?.getD ""

/-- calculateHeaderWidth from TabManager: minWidth fallback for a missing
title element; otherwise Math.ceil(max(leftPadding + iconSpaceNeeded +
textWidth + closeButtonLeftPadding + closeButtonRightPadding, minWidth)),
clamped with min to maxWidth when maxWidth > 0. -/
def calculateHeaderWidth (s : PluginSettings) (measure : String → ℚ) (h : Header) : ℚ :=
  match h.title? with
  | none => s.minWidth
  | some t =>
    let textWidth := measureTextWidth (measure t)
    let iconSpaceNeeded : ℚ :=
      if s.hideTabIcons then 0 else (if 0 < s.iconWidth then s.iconWidth else 0)
    let calculatedWidth : ℚ :=
      ((⌈max (s.leftPadding + iconSpaceNeeded + textWidth +
              s.closeButtonLeftPadding + s.closeButtonRightPadding)
            s.minWidth⌉ : ℤ) : ℚ)
    if 0 < s.maxWidth then min calculatedWidth s.maxWidth else calculatedWidth

/-- Lookup in the title-keyed width cache (Map.get). -/
def mapGet : List (String × ℚ) → String → Option ℚ
  | [], _ => none
  | p :: t, k => if p.1 = k then some p.2 else mapGet t k

/-- Update of the title-keyed width cache (Map.set): replaces the first
binding of the key in place, appends a fresh binding otherwise. -/
def mapSet : List (String × ℚ) → String → ℚ → List (String × ℚ)
  | [], k, v => [(k, v)]
  | p :: t, k, v => if p.1 = k then (k, v) :: t else p :: mapSet t k v

/-- A header is skipped by the recalculation pass when the corresponding
ignore flag is on and the header is pinned (status icon mod-pinned),
respectively a webviewer tab. -/
def isIgnoredHeader (s : PluginSettings) (h : Header) : Bool :=
  (s.ignorePinnedTabs && h.isPinned) || (s.ignoreWebLinks && h.isWebviewer)

/-- The filter at the head of adjustAllHeaders: the container is displayed
and the header is not in the icon-loading state. -/
def headerEligible (h : Header) : Bool :=
  h.isVisible && !h.iconLoading

/-- Width chosen for a header during a pass: the cached width when present
and the tab is not active, a fresh calculateHeaderWidth otherwise
(needsRecalc = cachedWidth === undefined || isActive). -/
def headerNewWidth (s : PluginSettings) (measure : String → ℚ)
    (cache : List (String × ℚ)) (h : Header) : ℚ :=
  match mapGet cache (getHeaderKey h) with
  | some w => if h.isActive then calculateHeaderWidth s measure h else w
  | none => calculateHeaderWidth s measure h

/-- Style value adjustAllHeaders finally writes for a chosen width w: when
maxWidth is enabled and w ≥ maxWidth it overwrites the property with
min(w, maxWidth + 20), otherwise the property keeps w. -/
def applyWidth (s : PluginSettings) (w : ℚ) : ℚ :=
  if 0 < s.maxWidth ∧ s.maxWidth ≤ w then min w (s.maxWidth + 20) else w

/-- Effect of one adjustAllHeaders pass on a single eligible header:
ignored headers lose the autofit classes and the --header-width property;
the others get the autofit-tab class, the autofit-max-width class exactly
when maxWidth is enabled and the chosen width reaches it, and the written
width value. -/
def adjustHeader (s : PluginSettings) (measure : String → ℚ)
    (cache : List (String × ℚ)) (h : Header) : Header :=
  if isIgnoredHeader s h then
    { h with autofitTab := false, autofitMaxWidth := false, headerWidth := none }
  else
    let w := headerNewWidth s measure cache h
    { h with
        autofitTab := true,
        autofitMaxWidth := decide (0 < s.maxWidth ∧ s.maxWidth ≤ w),
        headerWidth := some (applyWidth s w) }

/-- One step of the cache rebuild: an ignored header returns before the
insert, every other header inserts its chosen (unclamped) width under its
title key. -/
def cacheStep (s : PluginSettings) (measure : String → ℚ)
    (c0 : List (String × ℚ)) (acc : List (String × ℚ)) (h : Header) :
    List (String × ℚ) :=
  if isIgnoredHeader s h then acc
  else mapSet acc (getHeaderKey h) (headerNewWidth s measure c0 h)

/-- The cache rebuilt by one pass: starting from an empty Map, the
eligible headers contribute in document order, reading widths from the
old cache c0. -/
def buildCache (s : PluginSettings) (measure : String → ℚ)
    (c0 : List (String × ℚ)) (hs : List Header) : List (String × ℚ) :=
  hs.foldl (cacheStep s measure c0) []

/-- State touched by a recalculation pass: the tab headers in document
order, the title-keyed width cache, and the isResetting flag. -/
structure TabState where
  headers : List Header
  cache : List (String × ℚ)
  isResetting : Bool
deriving DecidableEq

/-- adjustAllHeaders: no-op while resetting; otherwise every eligible
header is adjusted against the old cache and the cache is rebuilt from the
eligible headers. -/
def adjustAllHeaders (s : PluginSettings) (measure : String → ℚ) (st : TabState) : TabState :=
  if st.isResetting then st
  else
    { headers := st.headers.map
        (fun h => if headerEligible h then adjustHeader s measure st.cache h else h),
      cache := buildCache s measure st.cache (st.headers.filter headerEligible),
      isResetting := st.isResetting }

/-- State of the frame-coalescing adjustment queue: the guard boolean, the
closeInProgress flag, and how many animation-frame callbacks are currently
scheduled. -/
structure QueueState where
  isAdjustmentQueued : Bool
  closeInProgress : Bool
  scheduled : ℕ
deriving DecidableEq

/-- queueHeaderAdjustment: returns immediately during a close; otherwise,
when no adjustment is queued, sets the guard and schedules one
requestAnimationFrame callback; when one is queued, does nothing. -/
def queueHeaderAdjustment (st : QueueState) : QueueState :=
  if st.closeInProgress then st
  else if st.isAdjustmentQueued then st
  else { st with isAdjustmentQueued := true, scheduled := st.scheduled + 1 }

/-- Running the animation frame: every scheduled callback re-checks
closeInProgress (running adjustAllHeaders only when it is off) and clears
the guard; the second component counts the adjustAllHeaders passes
executed in the frame. -/
def runFrameCallbacks (st : QueueState) : QueueState × ℕ :=
  ({ st with isAdjustmentQueued := false, scheduled := 0 },
   if st.closeInProgress then 0 else st.scheduled)

/-- State of the close-animation sequence for the tab being closed:
the two module flags, the tab's --header-width style and autofit-closing
class, the pending timers (absolute firing times), whether the host's
close-leaf operation has been invoked, and a counter of executed
recalculation passes. -/
structure CloseState where
  closeInProgress : Bool
  isResetting : Bool
  tabWidth : Option ℚ
  tabClosing : Bool
  pendingCloseAt : Option ℕ
  pendingClearAt : Option ℕ
  leafClosed : Bool
  adjustPasses : ℕ
deriving DecidableEq

/-- startClosingAnimation: returns without touching the tab while a reset
is in progress; otherwise adds the autofit-closing class and sets the
tab's --header-width to 0px. -/
def startClosingAnimation (st : CloseState) : CloseState :=
  if st.isResetting then st
  else { st with tabClosing := true, tabWidth := some 0 }

/-- initiateClose: returns if a close is already in progress; otherwise
sets closeInProgress, starts the closing animation and schedules the
close-leaf timeout for transitionDuration milliseconds later. -/
def initiateClose (duration now : ℕ) (st : CloseState) : CloseState :=
  if st.closeInProgress then st
  else
    let st1 := startClosingAnimation { st with closeInProgress := true }
    { st1 with pendingCloseAt := some (now + duration) }

/-- Body of the duration timeout inside initiateClose: invoke the host's
close-leaf operation and schedule the 300 ms grace timeout that clears
closeInProgress. -/
def closeTimerFired (now : ℕ) (st : CloseState) : CloseState :=
  { st with leafClosed := true, pendingCloseAt := none,
            pendingClearAt := some (now + 300) }

/-- Body of the grace timeout: clear the closeInProgress flag. -/
def clearTimerFired (st : CloseState) : CloseState :=
  { st with closeInProgress := false, pendingClearAt := none }

/-- A width-recalculation trigger during the close sequence: every entry
point into adjustAllHeaders (queueHeaderAdjustment and the handlers that
call it) is guarded by closeInProgress, so a trigger executes a pass only
when no close is in progress. -/
def triggerAdjust (st : CloseState) : CloseState :=
  if st.closeInProgress then st
  else { st with adjustPasses := st.adjustPasses + 1 }

/-- onChange handler of a numeric settings text field: Number(value) is
supplied as `none` when it is NaN; the setting is assigned and
saveSettings awaited only when the parsed value is a number that is ≥ 0.
Returns the stored value and the save counter after the change event. -/
def numericSettingOnChange (current : ℚ) (saveCount : ℕ)
    (numValue : Option ℚ) : ℚ × ℕ :=
  match numValue with
  | none => (current, saveCount)
  | some v => if 0 ≤ v then (v, saveCount + 1) else (current, saveCount)

/-- Default settings of the current plugin version (types.ts). -/
def defaultSettings : PluginSettings :=
  { minWidth := 40, leftPadding := 12, closeButtonLeftPadding := 30,
    closeButtonRightPadding := 8, transitionDuration := 375, iconWidth := 20,
    maxWidth := 0, ignorePinnedTabs := false, hideTabIcons := false,
    ignoreWebLinks := false }

/-- A plain visible main-area tab header titled "Note", not yet adjusted. -/
def noteHeader : Header :=
  { title? := some "Note", isActive := false, isPinned := false,
    isWebviewer := false, isVisible := true, iconLoading := false,
    autofitTab := false, autofitMaxWidth := false, headerWidth := none }

/-- A header whose title element is missing. -/
def bareHeader : Header :=
  { noteHeader with title? := none }

/-- The settings with a minimum width above the enabled maximum width,
exhibiting the order of the two clamps in calculateHeaderWidth. -/
def minAboveMaxSettings : PluginSettings :=
  { defaultSettings with minWidth := 100, maxWidth := 50 }

/-- Helper: the rounded-up max against the minimum width is at least the
minimum width. -/
lemma min_le_ceil_max (q m : ℚ) : m ≤ ((⌈max q m⌉ : ℤ) : ℚ) :=
  le_trans (le_max_right q m) (Int.le_ceil _)

/-- Helper: the final style write never raises a width that already obeys
the maximum. -/
lemma applyWidth_le (s : PluginSettings) (w : ℚ) (hw : w ≤ s.maxWidth) :
    applyWidth s w ≤ s.maxWidth := by
  unfold applyWidth
  split
  · exact le_trans (min_le_left _ _) hw
  · exact hw

/-- C9: a tab header without a title element gets exactly the configured
minimum width from calculateHeaderWidth, with no error path. -/
theorem calcWidth_missing_title (s : PluginSettings) (measure : String → ℚ)
    (h : Header) (ht : h.title? = none) :
    calculateHeaderWidth s measure h = s.minWidth := by
  simp [calculateHeaderWidth, ht]

theorem calcWidth_missing_title_witness :
    calculateHeaderWidth defaultSettings (fun _ => 0) bareHeader
      = defaultSettings.minWidth :=
  calcWidth_missing_title defaultSettings (fun _ => 0) bareHeader rfl

/-- C2: with minWidth 40, leftPadding 12, closeButtonLeftPadding 30,
closeButtonRightPadding 8, iconWidth 20 and maxWidth disabled, a title
whose measured text width is 35 px yields
max(40, 12 + 20 + 35 + 30 + 8) = 105. -/
theorem calcWidth_example (measure : String → ℚ)
    (hm : measureTextWidth (measure "Note") = 35) :
    calculateHeaderWidth defaultSettings measure noteHeader = 105 := by
  simp only [calculateHeaderWidth, noteHeader, defaultSettings, hm]
  norm_num

theorem calcWidth_example_witness :
    measureTextWidth ((fun _ => (30 : ℚ)) "Note") = 35 ∧
      calculateHeaderWidth defaultSettings (fun _ => (30 : ℚ)) noteHeader = 105 := by
  have hm : measureTextWidth ((fun _ => (30 : ℚ)) "Note") = 35 := by
    simp only [measureTextWidth]
    norm_num
  exact ⟨hm, calcWidth_example (fun _ => (30 : ℚ)) hm⟩

/-- C6: for fixed settings the computed width is monotone in the measured
title text width, through the maxWidth clamp. -/
theorem calcWidth_monotone (s : PluginSettings) (measure : String → ℚ)
    (hA hB : Header) (tA tB : String)
    (hta : hA.title? = some tA) (htb : hB.title? = some tB)
    (hle : measure tA ≤ measure tB) :
    calculateHeaderWidth s measure hA ≤ calculateHeaderWidth s measure hB := by
  simp only [calculateHeaderWidth, hta, htb]
  have htw : measureTextWidth (measure tA) ≤ measureTextWidth (measure tB) := by
    unfold measureTextWidth
    have hcc : (⌈measure tA⌉ : ℤ) ≤ ⌈measure tB⌉ := Int.ceil_le_ceil hle
    have : ((⌈measure tA⌉ : ℤ) : ℚ) ≤ ((⌈measure tB⌉ : ℤ) : ℚ) := by
      exact_mod_cast hcc
    linarith
  have hsum :
      s.leftPadding + (if s.hideTabIcons then 0 else if 0 < s.iconWidth then s.iconWidth else 0)
          + measureTextWidth (measure tA)
          + s.closeButtonLeftPadding + s.closeButtonRightPadding
        ≤ s.leftPadding + (if s.hideTabIcons then 0 else if 0 < s.iconWidth then s.iconWidth else 0)
          + measureTextWidth (measure tB)
          + s.closeButtonLeftPadding + s.closeButtonRightPadding := by
    linarith
  have hceil :
      ((⌈max (s.leftPadding + (if s.hideTabIcons then 0 else if 0 < s.iconWidth then s.iconWidth else 0)
          + measureTextWidth (measure tA)
          + s.closeButtonLeftPadding + s.closeButtonRightPadding) s.minWidth⌉ : ℤ) : ℚ)
        ≤ ((⌈max (s.leftPadding + (if s.hideTabIcons then 0 else if 0 < s.iconWidth then s.iconWidth else 0)
          + measureTextWidth (measure tB)
          + s.closeButtonLeftPadding + s.closeButtonRightPadding) s.minWidth⌉ : ℤ) : ℚ) := by
    exact_mod_cast Int.ceil_le_ceil (max_le_max hsum le_rfl)
  by_cases hmw : 0 < s.maxWidth
  · simp only [hmw, if_true]
    exact min_le_min hceil le_rfl
  · simp only [hmw, if_false]
    exact hceil

theorem calcWidth_monotone_witness :
    calculateHeaderWidth defaultSettings (fun t => if t = "bb" then 7 else 3)
        { noteHeader with title? := some "a" }
      ≤ calculateHeaderWidth defaultSettings (fun t => if t = "bb" then 7 else 3)
        { noteHeader with title? := some "bb" } :=
  calcWidth_monotone defaultSettings (fun t => if t = "bb" then 7 else 3)
    { noteHeader with title? := some "a" } { noteHeader with title? := some "bb" }
    "a" "bb" rfl rfl
    (by show (if "a" = "bb" then (7 : ℚ) else 3) ≤ if "bb" = "bb" then (7 : ℚ) else 3
        rw [if_neg (show ¬("a" = "bb") by simp), if_pos rfl]; norm_num)

/-- C1 (counterexample): with minWidth 100 and maxWidth 50 enabled, the
computed width is the maxWidth clamp 50, strictly below the configured
minimum width, refuting "the width is at least settings.minWidth" for
every settings record. -/
theorem calcWidth_min_bound_cex :
    calculateHeaderWidth minAboveMaxSettings (fun _ => 0) noteHeader = 50 ∧
      ¬ (minAboveMaxSettings.minWidth
          ≤ calculateHeaderWidth minAboveMaxSettings (fun _ => 0) noteHeader) := by
  have hv : calculateHeaderWidth minAboveMaxSettings (fun _ => 0) noteHeader = 50 := by
    simp only [calculateHeaderWidth, minAboveMaxSettings, defaultSettings, noteHeader,
      measureTextWidth]
    norm_num
  refine ⟨hv, ?_⟩
  rw [hv]
  norm_num [minAboveMaxSettings, defaultSettings]

/-- C1 (amended): when maxWidth is disabled or at least minWidth, the
computed width is at least minWidth; whenever maxWidth is enabled the
computed width is at most maxWidth, and the style value adjustAllHeaders
writes for a freshly computed width also stays at most maxWidth. -/
theorem calcWidth_bounds (s : PluginSettings) (measure : String → ℚ) (h : Header)
    (hc : 0 < s.maxWidth → s.minWidth ≤ s.maxWidth) :
    s.minWidth ≤ calculateHeaderWidth s measure h ∧
      (0 < s.maxWidth → calculateHeaderWidth s measure h ≤ s.maxWidth) ∧
      (0 < s.maxWidth → applyWidth s (calculateHeaderWidth s measure h) ≤ s.maxWidth) := by
  cases ht : h.title? with
  | none =>
    rw [show calculateHeaderWidth s measure h = s.minWidth by
      simp [calculateHeaderWidth, ht]]
    exact ⟨le_rfl, hc, fun hm => applyWidth_le s s.minWidth (hc hm)⟩
  | some t =>
    simp only [calculateHeaderWidth, ht]
    by_cases hmw : 0 < s.maxWidth
    · simp only [hmw, if_true]
      refine ⟨le_min (min_le_ceil_max _ _) (hc hmw), fun _ => min_le_right _ _,
        fun _ => applyWidth_le s _ (min_le_right _ _)⟩
    · simp only [hmw, if_false]
      exact ⟨min_le_ceil_max _ _, fun hm => hm.elim, fun hm => hm.elim⟩

theorem calcWidth_bounds_witness :
    defaultSettings.minWidth
        ≤ calculateHeaderWidth defaultSettings (fun _ => 30) noteHeader ∧
      (0 < defaultSettings.maxWidth →
        calculateHeaderWidth defaultSettings (fun _ => 30) noteHeader
          ≤ defaultSettings.maxWidth) ∧
      (0 < defaultSettings.maxWidth →
        applyWidth defaultSettings
            (calculateHeaderWidth defaultSettings (fun _ => 30) noteHeader)
          ≤ defaultSettings.maxWidth) :=
  calcWidth_bounds defaultSettings (fun _ => 30) noteHeader
    (by norm_num [defaultSettings])

/-- C8: a numeric settings field changes the stored setting and performs a
save exactly when the entered value parses to a number that is ≥ 0; a NaN
or negative input leaves the stored value untouched and saves nothing. -/
theorem numeric_setting_validation (cur : ℚ) (n : ℕ) (v : ℚ) :
    numericSettingOnChange cur n none = (cur, n) ∧
      (v < 0 → numericSettingOnChange cur n (some v) = (cur, n)) ∧
      (0 ≤ v → numericSettingOnChange cur n (some v) = (v, n + 1)) := by
  refine ⟨rfl, fun hv => ?_, fun hv => ?_⟩
  · simp [numericSettingOnChange, not_le.mpr hv]
  · simp [numericSettingOnChange, hv]

theorem numeric_setting_validation_witness :
    numericSettingOnChange 40 0 none = (40, 0) ∧
      numericSettingOnChange 40 0 (some (-3)) = (40, 0) ∧
      numericSettingOnChange 40 0 (some 7) = (7, 1) :=
  ⟨(numeric_setting_validation 40 0 7).1,
   (numeric_setting_validation 40 0 (-3)).2.1 (by norm_num),
   (numeric_setting_validation 40 0 7).2.2 (by norm_num)⟩

/-- C4: any positive number of queueHeaderAdjustment calls before the
animation-frame callback runs schedules exactly one callback (the
isAdjustmentQueued guard makes the later calls no-ops), so exactly one
adjustAllHeaders pass executes in that frame. -/
theorem queue_coalesces (st : QueueState) (n : ℕ)
    (h1 : st.isAdjustmentQueued = false) (h2 : st.closeInProgress = false)
    (h3 : st.scheduled = 0) (hn : 0 < n) :
    (queueHeaderAdjustment^[n] st).scheduled = 1 ∧
      (runFrameCallbacks (queueHeaderAdjustment^[n] st)).2 = 1 := by
  have hq : queueHeaderAdjustment st
      = { st with isAdjustmentQueued := true, scheduled := st.scheduled + 1 } := by
    simp [queueHeaderAdjustment, h1, h2]
  have hfix : queueHeaderAdjustment (queueHeaderAdjustment st)
      = queueHeaderAdjustment st := by
    rw [hq]
    simp [queueHeaderAdjustment, h2]
  obtain ⟨m, rfl⟩ : ∃ m, n = m + 1 := ⟨n - 1, (Nat.succ_pred_eq_of_pos hn).symm⟩
  rw [Function.iterate_succ_apply, Function.iterate_fixed hfix m]
  constructor
  · rw [hq, h3]
  · rw [runFrameCallbacks, hq]
    simp [h2, h3]

theorem queue_coalesces_witness :
    (queueHeaderAdjustment^[3] ⟨false, false, 0⟩).scheduled = 1 ∧
      (runFrameCallbacks (queueHeaderAdjustment^[3] ⟨false, false, 0⟩)).2 = 1 :=
  queue_coalesces ⟨false, false, 0⟩ 3 rfl rfl rfl (by norm_num)

/-- A close gesture arriving while a settings reset is in progress. -/
def resettingCloseState : CloseState :=
  { closeInProgress := false, isResetting := true, tabWidth := some 120,
    tabClosing := false, pendingCloseAt := none, pendingClearAt := none,
    leafClosed := false, adjustPasses := 0 }

/-- C5 (counterexample): a close gesture while isResetting is set leaves
the tab's width style untouched (startClosingAnimation returns early), so
the close sequence does not set the width to zero, although the close
itself is still scheduled and proceeds. -/
theorem close_width_not_zeroed_cex :
    (initiateClose 375 0 resettingCloseState).closeInProgress = true ∧
      (initiateClose 375 0 resettingCloseState).tabWidth = some 120 ∧
      ¬ ((initiateClose 375 0 resettingCloseState).tabWidth = some 0) ∧
      (initiateClose 375 0 resettingCloseState).pendingCloseAt = some 375 := by
  have h : initiateClose 375 0 resettingCloseState
      = { resettingCloseState with
            closeInProgress := true
            pendingCloseAt := some 375 } := by
    simp [initiateClose, startClosingAnimation, resettingCloseState]
  rw [h]
  refine ⟨rfl, rfl, ?_, rfl⟩
  simp [resettingCloseState]

/-- C5 (amended): on a close gesture with no close already in progress and
no settings reset in progress, the tab's width style is set to zero and
the closing class added, the close-leaf timeout is scheduled after the
transition duration, every recalculation trigger during the close window
is suppressed, the close-leaf operation is then invoked with the grace
timeout scheduled 300 ms later, after which the closing state is cleared;
nothing cancels the scheduled close. -/
theorem close_sequence (st : CloseState) (d now k : ℕ)
    (h1 : st.closeInProgress = false) (h2 : st.isResetting = false) :
    (initiateClose d now st).closeInProgress = true ∧
      (initiateClose d now st).tabWidth = some 0 ∧
      (initiateClose d now st).tabClosing = true ∧
      (initiateClose d now st).pendingCloseAt = some (now + d) ∧
      triggerAdjust^[k] (initiateClose d now st) = initiateClose d now st ∧
      (closeTimerFired (now + d) (initiateClose d now st)).leafClosed = true ∧
      (closeTimerFired (now + d) (initiateClose d now st)).pendingClearAt
        = some (now + d + 300) ∧
      (clearTimerFired (closeTimerFired (now + d)
          (initiateClose d now st))).closeInProgress = false := by
  have hic : initiateClose d now st
      = { st with
            closeInProgress := true
            tabClosing := true
            tabWidth := some 0
            pendingCloseAt := some (now + d) } := by
    simp [initiateClose, startClosingAnimation, h1, h2]
  refine ⟨by rw [hic], by rw [hic], by rw [hic], by rw [hic], ?_,
    by simp [closeTimerFired], by simp [closeTimerFired],
    by simp [clearTimerFired, closeTimerFired]⟩
  exact Function.iterate_fixed (by rw [hic]; simp [triggerAdjust]) k

/-- A quiescent close state used to instantiate the close sequence. -/
def idleCloseState : CloseState :=
  { closeInProgress := false, isResetting := false, tabWidth := some 105,
    tabClosing := false, pendingCloseAt := none, pendingClearAt := none,
    leafClosed := false, adjustPasses := 0 }

theorem close_sequence_witness :
    (initiateClose 375 0 idleCloseState).closeInProgress = true ∧
      (initiateClose 375 0 idleCloseState).tabWidth = some 0 ∧
      (initiateClose 375 0 idleCloseState).tabClosing = true ∧
      (initiateClose 375 0 idleCloseState).pendingCloseAt = some (0 + 375) ∧
      triggerAdjust^[5] (initiateClose 375 0 idleCloseState)
        = initiateClose 375 0 idleCloseState ∧
      (closeTimerFired (0 + 375) (initiateClose 375 0 idleCloseState)).leafClosed
        = true ∧
      (closeTimerFired (0 + 375)
          (initiateClose 375 0 idleCloseState)).pendingClearAt
        = some (0 + 375 + 300) ∧
      (clearTimerFired (closeTimerFired (0 + 375)
          (initiateClose 375 0 idleCloseState))).closeInProgress = false :=
  close_sequence idleCloseState 375 0 5 rfl rfl

/-- Helper: the style write stays within maxWidth + 20 whenever maxWidth
is enabled. -/
lemma applyWidth_le_add (s : PluginSettings) (w : ℚ) (hmw : 0 < s.maxWidth) :
    applyWidth s w ≤ s.maxWidth + 20 := by
  unfold applyWidth
  split
  · exact min_le_right _ _
  · next hn =>
    rcases not_and_or.mp hn with hn1 | hn2
    · exact absurd hmw hn1
    · linarith [not_le.mp hn2]

/-- Helper: with maxWidth enabled and minWidth not above it, a freshly
computed width never exceeds maxWidth. -/
lemma calcWidth_le_maxWidth (s : PluginSettings) (measure : String → ℚ)
    (h : Header) (hmw : 0 < s.maxWidth) (hc : s.minWidth ≤ s.maxWidth) :
    calculateHeaderWidth s measure h ≤ s.maxWidth := by
  cases ht : h.title? with
  | none => rw [show calculateHeaderWidth s measure h = s.minWidth by
      simp [calculateHeaderWidth, ht]]; exact hc
  | some t =>
    simp only [calculateHeaderWidth, ht, hmw, if_true]
    exact min_le_right _ _

/-- Helper: an active or uncached header gets a freshly computed width. -/
lemma headerNewWidth_recalc (s : PluginSettings) (measure : String → ℚ)
    (cache : List (String × ℚ)) (h : Header)
    (hr : h.isActive = true ∨ mapGet cache (getHeaderKey h) = none) :
    headerNewWidth s measure cache h = calculateHeaderWidth s measure h := by
  unfold headerNewWidth
  cases hm : mapGet cache (getHeaderKey h) with
  | none => rfl
  | some w =>
    rcases hr with ha | hn
    · rw [ha]; simp
    · rw [hm] at hn; exact absurd hn (by simp)

/-- C3 (amended): after maxWidth is re-enabled, the next recalculation
pass writes every adjusted (non-ignored) header a --header-width of at
most maxWidth + 20, and writes exactly the clamped value (at most
maxWidth) to every header whose width is freshly computed — the active
tab and tabs absent from the cache; a non-active tab whose stale cached
width was computed while the clamp was disabled may keep a rendered width
above maxWidth (capped at maxWidth + 20) until it is recomputed. -/
theorem adjusted_width_bounds (s : PluginSettings) (measure : String → ℚ)
    (cache : List (String × ℚ)) (h : Header)
    (hmw : 0 < s.maxWidth) (hc : s.minWidth ≤ s.maxWidth)
    (hig : isIgnoredHeader s h = false) :
    (adjustHeader s measure cache h).headerWidth
        = some (applyWidth s (headerNewWidth s measure cache h)) ∧
      applyWidth s (headerNewWidth s measure cache h) ≤ s.maxWidth + 20 ∧
      (h.isActive = true ∨ mapGet cache (getHeaderKey h) = none →
        applyWidth s (headerNewWidth s measure cache h) ≤ s.maxWidth) := by
  refine ⟨by simp [adjustHeader, hig], applyWidth_le_add s _ hmw, fun hr => ?_⟩
  rw [headerNewWidth_recalc s measure cache h hr]
  exact applyWidth_le s _ (calcWidth_le_maxWidth s measure h hmw hc)

/-- Settings after the user re-enables the maximum width at 50 px. -/
def reEnabledSettings : PluginSettings :=
  { defaultSettings with maxWidth := 50 }

theorem adjusted_width_bounds_witness :
    (adjustHeader reEnabledSettings (fun _ => 30) [] noteHeader).headerWidth
        = some (applyWidth reEnabledSettings
            (headerNewWidth reEnabledSettings (fun _ => 30) [] noteHeader)) ∧
      applyWidth reEnabledSettings
          (headerNewWidth reEnabledSettings (fun _ => 30) [] noteHeader)
        ≤ reEnabledSettings.maxWidth + 20 ∧
      (noteHeader.isActive = true ∨
          mapGet [] (getHeaderKey noteHeader) = none →
        applyWidth reEnabledSettings
            (headerNewWidth reEnabledSettings (fun _ => 30) [] noteHeader)
          ≤ reEnabledSettings.maxWidth) :=
  adjusted_width_bounds reEnabledSettings (fun _ => 30) [] noteHeader
    (by norm_num [reEnabledSettings, defaultSettings])
    (by norm_num [reEnabledSettings, defaultSettings])
    (by simp [isIgnoredHeader, reEnabledSettings, defaultSettings, noteHeader])

/-- A non-active tab titled "LongNote". -/
def longHeader : Header :=
  { noteHeader with title? := some "LongNote" }

/-- State after a pass ran while maxWidth was disabled: the cache holds
the unclamped 200 px width for "LongNote". -/
def staleState : TabState :=
  { headers := [longHeader], cache := [("LongNote", 200)], isResetting := false }

/-- The measure oracle under which "LongNote" computes to 200 px. -/
def staleMeasure : String → ℚ := fun _ => 125

/-- C3 (counterexample): the 200 px width cached while maxWidth was
disabled is not recomputed for the non-active tab after maxWidth is set
to 50; the pass writes --header-width: 70px (= maxWidth + 20), above the
re-enabled maxWidth, refuting the claimed convergence to the clamped
value. -/
theorem stale_width_exceeds_max_cex :
    calculateHeaderWidth defaultSettings staleMeasure longHeader = 200 ∧
      (adjustAllHeaders reEnabledSettings staleMeasure staleState).headers
        = [{ longHeader with
              autofitTab := true
              autofitMaxWidth := true
              headerWidth := some 70 }] ∧
      ¬ ((70 : ℚ) ≤ reEnabledSettings.maxWidth) := by
  refine ⟨?_, ?_, by norm_num [reEnabledSettings, defaultSettings]⟩
  · simp only [calculateHeaderWidth, longHeader, noteHeader, defaultSettings,
      staleMeasure, measureTextWidth]
    norm_num
  · norm_num [adjustAllHeaders, staleState, reEnabledSettings, defaultSettings,
      staleMeasure, headerEligible, longHeader, noteHeader, isIgnoredHeader,
      adjustHeader, headerNewWidth, mapGet, getHeaderKey, applyWidth,
      buildCache, cacheStep, mapSet, calculateHeaderWidth, measureTextWidth]

/-- Helper: adjusting a header never changes its title element. -/
lemma adjustHeader_title (s : PluginSettings) (measure : String → ℚ)
    (cache : List (String × ℚ)) (h : Header) :
    (adjustHeader s measure cache h).title? = h.title? := by
  unfold adjustHeader
  split <;> rfl

/-- Helper: adjusting a header never changes its active flag. -/
lemma adjustHeader_isActive (s : PluginSettings) (measure : String → ℚ)
    (cache : List (String × ℚ)) (h : Header) :
    (adjustHeader s measure cache h).isActive = h.isActive := by
  unfold adjustHeader
  split <;> rfl

/-- Helper: adjusting a header never changes its pinned status. -/
lemma adjustHeader_isPinned (s : PluginSettings) (measure : String → ℚ)
    (cache : List (String × ℚ)) (h : Header) :
    (adjustHeader s measure cache h).isPinned = h.isPinned := by
  unfold adjustHeader
  split <;> rfl

/-- Helper: adjusting a header never changes its webviewer status. -/
lemma adjustHeader_isWebviewer (s : PluginSettings) (measure : String → ℚ)
    (cache : List (String × ℚ)) (h : Header) :
    (adjustHeader s measure cache h).isWebviewer = h.isWebviewer := by
  unfold adjustHeader
  split <;> rfl

/-- Helper: adjusting a header never changes its container visibility. -/
lemma adjustHeader_isVisible (s : PluginSettings) (measure : String → ℚ)
    (cache : List (String × ℚ)) (h : Header) :
    (adjustHeader s measure cache h).isVisible = h.isVisible := by
  unfold adjustHeader
  split <;> rfl

/-- Helper: adjusting a header never changes its icon-loading state. -/
lemma adjustHeader_iconLoading (s : PluginSettings) (measure : String → ℚ)
    (cache : List (String × ℚ)) (h : Header) :
    (adjustHeader s measure cache h).iconLoading = h.iconLoading := by
  unfold adjustHeader
  split <;> rfl

/-- Helper: the ignore test only looks at fields adjusting preserves. -/
lemma isIgnoredHeader_adjust (s s2 : PluginSettings) (measure : String → ℚ)
    (cache : List (String × ℚ)) (h : Header) :
    isIgnoredHeader s2 (adjustHeader s measure cache h) = isIgnoredHeader s2 h := by
  unfold isIgnoredHeader
  rw [adjustHeader_isPinned, adjustHeader_isWebviewer]

/-- Helper: the eligibility filter only looks at fields adjusting
preserves. -/
lemma headerEligible_adjust (s : PluginSettings) (measure : String → ℚ)
    (cache : List (String × ℚ)) (h : Header) :
    headerEligible (adjustHeader s measure cache h) = headerEligible h := by
  unfold headerEligible
  rw [adjustHeader_isVisible, adjustHeader_iconLoading]

/-- Helper: the cache key only depends on the title element. -/
lemma getHeaderKey_congr (h h2 : Header) (ht : h2.title? = h.title?) :
    getHeaderKey h2 = getHeaderKey h := by
  unfold getHeaderKey
  rw [ht]

/-- Helper: the computed width only depends on the title element. -/
lemma calcWidth_congr (s : PluginSettings) (measure : String → ℚ)
    (h h2 : Header) (ht : h2.title? = h.title?) :
    calculateHeaderWidth s measure h2 = calculateHeaderWidth s measure h := by
  unfold calculateHeaderWidth
  rw [ht]

/-- Helper: the chosen width only depends on the title and active flag. -/
lemma headerNewWidth_congr (s : PluginSettings) (measure : String → ℚ)
    (cache : List (String × ℚ)) (h h2 : Header)
    (ht : h2.title? = h.title?) (ha : h2.isActive = h.isActive) :
    headerNewWidth s measure cache h2 = headerNewWidth s measure cache h := by
  unfold headerNewWidth
  rw [getHeaderKey_congr h h2 ht, ha, calcWidth_congr s measure h h2 ht]

/-- Helper: looking a key up after a Map.set sees the new binding for that
key and the old map elsewhere. -/
lemma mapGet_mapSet (m : List (String × ℚ)) (k k2 : String) (v : ℚ) :
    mapGet (mapSet m k v) k2 = if k = k2 then some v else mapGet m k2 := by
  induction m with
  | nil => simp only [mapSet, mapGet]
  | cons p t ih =>
    simp only [mapSet]
    by_cases hp : p.1 = k
    · rw [if_pos hp]
      simp only [mapGet]
      by_cases hk : k = k2
      · simp [hk]
      · have hp2 : p.1 ≠ k2 := by rw [hp]; exact hk
        simp [hk, hp2]
    · rw [if_neg hp]
      simp only [mapGet]
      by_cases hpk : p.1 = k2
      · have hkk : k ≠ k2 := fun he => hp (hpk.trans he.symm)
        simp [hpk, hkk]
      · simp [hpk, ih]

/-- The width recorded for key k by the cache-rebuild fold: the last
non-ignored header with that key wins; with none, the accumulator is
untouched at k. -/
def lastContrib (s : PluginSettings) (w : Header → ℚ) (k : String) :
    List Header → Option ℚ
  | [] => none
  | h :: t =>
    match lastContrib s w k t with
    | some v => some v
    | none =>
      if isIgnoredHeader s h = false ∧ getHeaderKey h = k then some (w h) else none

/-- Helper: reading the rebuilt cache returns the last contribution for
the key, falling back to the accumulator. -/
lemma foldl_cacheStep_get (s : PluginSettings) (measure : String → ℚ)
    (c0 : List (String × ℚ)) (k : String) :
    ∀ (hs : List Header) (acc : List (String × ℚ)),
      mapGet (hs.foldl (cacheStep s measure c0) acc) k
        = match lastContrib s (headerNewWidth s measure c0) k hs with
          | some v => some v
          | none => mapGet acc k := by
  intro hs
  induction hs with
  | nil => intro acc; rfl
  | cons h t ih =>
    intro acc
    rw [List.foldl_cons, ih (cacheStep s measure c0 acc h)]
    cases hlc : lastContrib s (headerNewWidth s measure c0) k t with
    | some v => simp [lastContrib, hlc]
    | none =>
      simp only [lastContrib, hlc]
      unfold cacheStep
      by_cases hg : isIgnoredHeader s h = true
      · simp [hg]
      · have hg2 : isIgnoredHeader s h = false := by
          simpa using hg
        rw [if_neg hg, mapGet_mapSet]
        by_cases hk : getHeaderKey h = k
        · rw [if_pos hk, if_pos ⟨hg2, hk⟩]
        · rw [if_neg hk, if_neg (fun hc => hk hc.2)]

/-- Helper: a recorded last contribution comes from some non-ignored
header of the list with the right key. -/
lemma lastContrib_exists (s : PluginSettings) (w : Header → ℚ) (k : String) :
    ∀ (l : List Header) (v : ℚ), lastContrib s w k l = some v →
      ∃ g, g ∈ l ∧ isIgnoredHeader s g = false ∧ getHeaderKey g = k ∧ w g = v := by
  intro l
  induction l with
  | nil => intro v hv; simp [lastContrib] at hv
  | cons a t ih =>
    intro v hv
    rw [lastContrib] at hv
    cases hlc : lastContrib s w k t with
    | some u =>
      rw [hlc] at hv
      obtain ⟨g, hg1, hg2, hg3, hg4⟩ := ih u hlc
      refine ⟨g, List.mem_cons_of_mem a hg1, hg2, hg3, ?_⟩
      rw [hg4]
      exact Option.some.inj hv
    | none =>
      rw [hlc] at hv
      by_cases hc : isIgnoredHeader s a = false ∧ getHeaderKey a = k
      · rw [if_pos hc] at hv
        exact ⟨a, List.mem_cons_self a t, hc.1, hc.2, Option.some.inj hv⟩
      · rw [if_neg hc] at hv
        exact absurd hv (by simp)

/-- Helper: a non-ignored member with the key always leaves a last
contribution. -/
lemma lastContrib_ne_none (s : PluginSettings) (w : Header → ℚ) (k : String) :
    ∀ (l : List Header) (h : Header), h ∈ l → isIgnoredHeader s h = false →
      getHeaderKey h = k → lastContrib s w k l ≠ none := by
  intro l
  induction l with
  | nil => intro h hm; simp at hm
  | cons a t ih =>
    intro h hm hig hk
    rw [lastContrib]
    rcases List.mem_cons.mp hm with rfl | hmt
    · cases hlc : lastContrib s w k t with
      | some u => simp
      | none => rw [if_pos ⟨hig, hk⟩]; simp
    · cases hlc : lastContrib s w k t with
      | some u => simp
      | none => exact absurd hlc (ih h hmt hig hk)

/-- Helper: when no two non-ignored headers of the list share a title
key, the last contribution for a member's key is exactly that member's
width. -/
lemma lastContrib_of_nodup (s : PluginSettings) (w : Header → ℚ) :
    ∀ (E : List Header) (h : Header), h ∈ E → isIgnoredHeader s h = false →
      ((E.filter (fun x => !isIgnoredHeader s x)).map getHeaderKey).Nodup →
      lastContrib s w (getHeaderKey h) E = some (w h) := by
  intro E
  induction E with
  | nil => intro h hm; simp at hm
  | cons a t ih =>
    intro h hm hig hnd
    rcases List.mem_cons.mp hm with rfl | hmt
    · cases hlc : lastContrib s w (getHeaderKey h) t with
      | some v =>
        obtain ⟨g, hgt, hgig, hgk, _⟩ :=
          lastContrib_exists s w (getHeaderKey h) t v hlc
        have hfa : (h :: t).filter (fun x => !isIgnoredHeader s x)
            = h :: t.filter (fun x => !isIgnoredHeader s x) := by
          simp [List.filter_cons, hig]
        rw [hfa, List.map_cons, List.nodup_cons] at hnd
        exact absurd
          (List.mem_map.mpr
            ⟨g, List.mem_filter.mpr ⟨hgt, by simp [hgig]⟩, hgk⟩)
          hnd.1
      | none => rw [lastContrib, hlc, if_pos ⟨hig, rfl⟩]
    · have hnd2 : ((t.filter (fun x => !isIgnoredHeader s x)).map getHeaderKey).Nodup := by
        cases ia : isIgnoredHeader s a with
        | true =>
          rw [show (a :: t).filter (fun x => !isIgnoredHeader s x)
              = t.filter (fun x => !isIgnoredHeader s x) by
            simp [List.filter_cons, ia]] at hnd
          exact hnd
        | false =>
          rw [show (a :: t).filter (fun x => !isIgnoredHeader s x)
              = a :: t.filter (fun x => !isIgnoredHeader s x) by
            simp [List.filter_cons, ia], List.map_cons, List.nodup_cons] at hnd
          exact hnd.2
      rw [lastContrib, ih h hmt hig hnd2]

/-- Helper: lookup in the freshly rebuilt cache under unique titles. -/
lemma mapGet_buildCache_of_nodup (s : PluginSettings) (measure : String → ℚ)
    (c0 : List (String × ℚ)) (E : List Header) (h : Header)
    (hmem : h ∈ E) (hig : isIgnoredHeader s h = false)
    (hnd : ((E.filter (fun x => !isIgnoredHeader s x)).map getHeaderKey).Nodup) :
    mapGet (buildCache s measure c0 E) (getHeaderKey h)
      = some (headerNewWidth s measure c0 h) := by
  rw [buildCache, foldl_cacheStep_get,
    lastContrib_of_nodup s (headerNewWidth s measure c0) E h hmem hig hnd]

/-- Helper: a last contribution survives prepending earlier headers. -/
lemma lastContrib_append (s : PluginSettings) (w : Header → ℚ) (k : String) :
    ∀ (l1 l2 : List Header) (v : ℚ), lastContrib s w k l2 = some v →
      lastContrib s w k (l1 ++ l2) = some v := by
  intro l1
  induction l1 with
  | nil => intro l2 v hv; simpa using hv
  | cons a t ih =>
    intro l2 v hv
    rw [List.cons_append, lastContrib, ih l2 v hv]

/-- Helper: a cached, non-active header keeps the cached width. -/
lemma headerNewWidth_cached (s : PluginSettings) (measure : String → ℚ)
    (c : List (String × ℚ)) (h : Header) (w : ℚ)
    (hg : mapGet c (getHeaderKey h) = some w) (ha : h.isActive = false) :
    headerNewWidth s measure c h = w := by
  simp [headerNewWidth, hg, ha]

/-- Helper: the last contribution for a key does not change when the
widths are read from the cache rebuilt over the same headers instead of
the original cache. -/
lemma lastContrib_stable (s : PluginSettings) (measure : String → ℚ)
    (c0 : List (String × ℚ)) (E : List Header) (k : String) :
    ∀ (l2 l1 : List Header), E = l1 ++ l2 →
      lastContrib s (headerNewWidth s measure (buildCache s measure c0 E)) k l2
        = lastContrib s (headerNewWidth s measure c0) k l2 := by
  intro l2
  induction l2 with
  | nil => intro l1 hE; rfl
  | cons h t ih =>
    intro l1 hE
    have hE2 : E = (l1 ++ [h]) ++ t := by rw [hE, List.append_assoc]; rfl
    rw [lastContrib, lastContrib, ih (l1 ++ [h]) hE2]
    cases hlc : lastContrib s (headerNewWidth s measure c0) k t with
    | some v => rfl
    | none =>
      by_cases hc : isIgnoredHeader s h = false ∧ getHeaderKey h = k
      · obtain ⟨hig, hk⟩ := hc
        subst hk
        rw [if_pos ⟨hig, rfl⟩, if_pos ⟨hig, rfl⟩]
        have hsome : lastContrib s (headerNewWidth s measure c0) (getHeaderKey h) E
            = some (headerNewWidth s measure c0 h) := by
          rw [hE]
          apply lastContrib_append
          rw [lastContrib, hlc, if_pos ⟨hig, rfl⟩]
        have hget : mapGet (buildCache s measure c0 E) (getHeaderKey h)
            = some (headerNewWidth s measure c0 h) := by
          rw [buildCache, foldl_cacheStep_get, hsome]
        have hw : headerNewWidth s measure (buildCache s measure c0 E) h
            = headerNewWidth s measure c0 h := by
          cases ha : h.isActive with
          | true =>
            rw [headerNewWidth_recalc s measure _ h (Or.inl ha),
              headerNewWidth_recalc s measure c0 h (Or.inl ha)]
          | false => exact headerNewWidth_cached s measure _ h _ hget ha
        rw [hw]
      · rw [if_neg hc, if_neg hc]

/-- Helper: adjusting the headers does not change their contributions. -/
lemma lastContrib_map_adjust (s : PluginSettings) (measure : String → ℚ)
    (c0 c : List (String × ℚ)) (k : String) :
    ∀ l : List Header,
      lastContrib s (headerNewWidth s measure c) k
          (l.map (adjustHeader s measure c0))
        = lastContrib s (headerNewWidth s measure c) k l := by
  intro l
  induction l with
  | nil => rfl
  | cons h t ih =>
    rw [List.map_cons, lastContrib, lastContrib, ih]
    simp only [isIgnoredHeader_adjust s s measure c0 h,
      getHeaderKey_congr h (adjustHeader s measure c0 h)
        (adjustHeader_title s measure c0 h),
      headerNewWidth_congr s measure c h (adjustHeader s measure c0 h)
        (adjustHeader_title s measure c0 h)
        (adjustHeader_isActive s measure c0 h)]

/-- Helper: the eligible headers after a pass are the adjusted eligible
headers of before. -/
lemma filter_map_adjust (s : PluginSettings) (measure : String → ℚ)
    (c0 : List (String × ℚ)) :
    ∀ l : List Header,
      (l.map (fun h => if headerEligible h then adjustHeader s measure c0 h else h)).filter
          headerEligible
        = (l.filter headerEligible).map (adjustHeader s measure c0) := by
  intro l
  induction l with
  | nil => rfl
  | cons h t ih =>
    rw [List.map_cons, List.filter_cons, List.filter_cons]
    cases he : headerEligible h with
    | true =>
      simp only [he, if_true, headerEligible_adjust, List.map_cons, ih]
    | false =>
      simp only [he, Bool.false_eq_true, if_false, ih]

/-- Helper: under unique titles, rereading a header's width from the
rebuilt cache chooses the same width again. -/
lemma headerNewWidth_buildCache (s : PluginSettings) (measure : String → ℚ)
    (c0 : List (String × ℚ)) (E : List Header) (h : Header)
    (hmem : h ∈ E) (hig : isIgnoredHeader s h = false)
    (hnd : ((E.filter (fun x => !isIgnoredHeader s x)).map getHeaderKey).Nodup) :
    headerNewWidth s measure (buildCache s measure c0 E) h
      = headerNewWidth s measure c0 h := by
  have hget := mapGet_buildCache_of_nodup s measure c0 E h hmem hig hnd
  cases ha : h.isActive with
  | true =>
    rw [headerNewWidth_recalc s measure _ h (Or.inl ha),
      headerNewWidth_recalc s measure c0 h (Or.inl ha)]
  | false => exact headerNewWidth_cached s measure _ h _ hget ha

/-- Helper: the explicit form of adjusting an ignored header. -/
lemma adjustHeader_ignored_eq (s : PluginSettings) (measure : String → ℚ)
    (c : List (String × ℚ)) (g : Header) (hg : isIgnoredHeader s g = true) :
    adjustHeader s measure c g
      = { g with
            autofitTab := false
            autofitMaxWidth := false
            headerWidth := none } := by
  simp [adjustHeader, hg]

/-- Helper: the explicit form of adjusting a non-ignored header. -/
lemma adjustHeader_not_ignored_eq (s : PluginSettings) (measure : String → ℚ)
    (c : List (String × ℚ)) (g : Header) (hg : isIgnoredHeader s g = false) :
    adjustHeader s measure c g
      = { g with
            autofitTab := true
            autofitMaxWidth :=
              decide (0 < s.maxWidth ∧ s.maxWidth ≤ headerNewWidth s measure c g)
            headerWidth := some (applyWidth s (headerNewWidth s measure c g)) } := by
  simp [adjustHeader, hg]

/-- Helper: clearing an ignored header twice equals clearing it once. -/
lemma adjustHeader_idem_ignored (s : PluginSettings) (measure : String → ℚ)
    (c c2 : List (String × ℚ)) (h : Header)
    (hig : isIgnoredHeader s h = true) :
    adjustHeader s measure c2 (adjustHeader s measure c h)
      = adjustHeader s measure c h := by
  have hig2 : isIgnoredHeader s (adjustHeader s measure c h) = true := by
    rw [isIgnoredHeader_adjust]; exact hig
  rw [adjustHeader_ignored_eq s measure c2 _ hig2]
  simp [adjustHeader, hig]

/-- Helper: adjusting twice with the same chosen width equals adjusting
once. -/
lemma adjustHeader_idem (s : PluginSettings) (measure : String → ℚ)
    (c c2 : List (String × ℚ)) (h : Header)
    (hig : isIgnoredHeader s h = false)
    (hw : headerNewWidth s measure c2 (adjustHeader s measure c h)
      = headerNewWidth s measure c h) :
    adjustHeader s measure c2 (adjustHeader s measure c h)
      = adjustHeader s measure c h := by
  have hig2 : isIgnoredHeader s (adjustHeader s measure c h) = false := by
    rw [isIgnoredHeader_adjust]; exact hig
  rw [adjustHeader_not_ignored_eq s measure c2 _ hig2, hw]
  simp [adjustHeader, hig]

/-- Helper: rebuilding the cache a second time over the adjusted headers
records the same width for every key. -/
lemma buildCache_idem (s : PluginSettings) (measure : String → ℚ)
    (c0 : List (String × ℚ)) (E : List Header) (k : String) :
    mapGet (buildCache s measure (buildCache s measure c0 E)
        (E.map (adjustHeader s measure c0))) k
      = mapGet (buildCache s measure c0 E) k := by
  show mapGet ((E.map (adjustHeader s measure c0)).foldl
      (cacheStep s measure (buildCache s measure c0 E)) []) k
    = mapGet (E.foldl (cacheStep s measure c0) []) k
  rw [foldl_cacheStep_get s measure (buildCache s measure c0 E) k,
    foldl_cacheStep_get s measure c0 k,
    lastContrib_map_adjust s measure c0 (buildCache s measure c0 E) k E,
    lastContrib_stable s measure c0 E k E [] rfl]

/-- Helper: repeating the per-header adjustment map over the adjusted
headers (against the rebuilt cache) changes nothing, provided the
eligible non-ignored headers carry pairwise distinct title keys. -/
lemma pass_headers_idem (s : PluginSettings) (measure : String → ℚ)
    (hs : List Header) (c0 : List (String × ℚ))
    (hnd : (((hs.filter headerEligible).filter
        (fun x => !isIgnoredHeader s x)).map getHeaderKey).Nodup) :
    (hs.map (fun h => if headerEligible h then adjustHeader s measure c0 h else h)).map
        (fun h => if headerEligible h then
          adjustHeader s measure (buildCache s measure c0 (hs.filter headerEligible)) h
          else h)
      = hs.map (fun h => if headerEligible h then adjustHeader s measure c0 h else h) := by
  rw [List.map_map]
  apply List.map_congr_left
  intro h hmem
  simp only [Function.comp_apply]
  cases he : headerEligible h with
  | false => simp [he]
  | true =>
    simp only [he, if_true, headerEligible_adjust]
    cases ig : isIgnoredHeader s h with
    | true => exact adjustHeader_idem_ignored s measure c0 _ h ig
    | false =>
      apply adjustHeader_idem s measure c0 _ h ig
      rw [headerNewWidth_congr s measure _
        h (adjustHeader s measure c0 h)
        (adjustHeader_title s measure c0 h) (adjustHeader_isActive s measure c0 h)]
      exact headerNewWidth_buildCache s measure c0 (hs.filter headerEligible) h
        (List.mem_filter.mpr ⟨hmem, he⟩) ig hnd

/-- C7 (amended): with title texts, settings and measurement unchanged,
running a second adjustAllHeaders pass right after a first one leaves the
rebuilt cache extensionally unchanged (every title maps to the same
width), and — provided no two eligible, non-ignored tabs share a title
text — assigns every tab exactly the header state (and width) the first
pass assigned; with duplicate titles a non-active tab can change width in
the second pass when its stale cache entry differs from the freshly
computed width of an active tab with the same title. -/
theorem pass_idempotent (s : PluginSettings) (measure : String → ℚ)
    (st : TabState) (k : String)
    (hnd : (((st.headers.filter headerEligible).filter
        (fun x => !isIgnoredHeader s x)).map getHeaderKey).Nodup) :
    mapGet (adjustAllHeaders s measure (adjustAllHeaders s measure st)).cache k
        = mapGet (adjustAllHeaders s measure st).cache k ∧
      (adjustAllHeaders s measure (adjustAllHeaders s measure st)).headers
        = (adjustAllHeaders s measure st).headers := by
  cases hr : st.isResetting with
  | true => simp [adjustAllHeaders, hr]
  | false =>
    have hpass : ∀ st2 : TabState, st2.isResetting = false →
        adjustAllHeaders s measure st2
          = { headers := st2.headers.map
                (fun h => if headerEligible h then adjustHeader s measure st2.cache h else h),
              cache := buildCache s measure st2.cache (st2.headers.filter headerEligible),
              isResetting := false } := by
      intro st2 h2
      simp [adjustAllHeaders, h2]
    have hr1 : (adjustAllHeaders s measure st).isResetting = false := by
      simp [adjustAllHeaders, hr]
    rw [hpass (adjustAllHeaders s measure st) hr1, hpass st hr]
    dsimp only
    constructor
    · rw [filter_map_adjust]
      exact buildCache_idem s measure st.cache (st.headers.filter headerEligible) k
    · exact pass_headers_idem s measure st.headers st.cache hnd

theorem pass_idempotent_witness :
    mapGet (adjustAllHeaders defaultSettings staleMeasure
        (adjustAllHeaders defaultSettings staleMeasure
          { headers := [longHeader], cache := [], isResetting := false })).cache
        "LongNote"
      = mapGet (adjustAllHeaders defaultSettings staleMeasure
          { headers := [longHeader], cache := [], isResetting := false }).cache
        "LongNote" ∧
      (adjustAllHeaders defaultSettings staleMeasure
        (adjustAllHeaders defaultSettings staleMeasure
          { headers := [longHeader], cache := [], isResetting := false })).headers
      = (adjustAllHeaders defaultSettings staleMeasure
          { headers := [longHeader], cache := [], isResetting := false }).headers :=
  pass_idempotent defaultSettings staleMeasure
    { headers := [longHeader], cache := [], isResetting := false } "LongNote"
    (by simp [headerEligible, isIgnoredHeader, longHeader, noteHeader,
      defaultSettings, getHeaderKey])

/-- The non-active duplicate of the active tab titled "T". -/
def dupHeaderB : Header :=
  { noteHeader with title? := some "T" }

/-- The active tab titled "T". -/
def dupHeaderA : Header :=
  { noteHeader with title? := some "T", isActive := true }

/-- Two tabs sharing the title "T" with a stale 100 px cache entry. -/
def dupState : TabState :=
  { headers := [dupHeaderB, dupHeaderA], cache := [("T", 100)],
    isResetting := false }

/-- The measure oracle under which "T" freshly computes to 85 px. -/
def dupMeasure : String → ℚ := fun _ => 10

/-- C7 (counterexample): with two tabs sharing the title "T" and a stale
cache entry of 100 px, the first pass assigns 100 px to the non-active
tab (cache hit) and 85 px to the active tab (fresh computation, which
also overwrites the shared cache entry); the second pass, with title,
settings and measurement unchanged, then assigns the non-active tab
85 px — not the same width as the first pass. -/
theorem second_pass_changes_width_cex :
    (adjustAllHeaders defaultSettings dupMeasure dupState).headers.map
        Header.headerWidth
      = [some 100, some 85] ∧
    (adjustAllHeaders defaultSettings dupMeasure
        (adjustAllHeaders defaultSettings dupMeasure dupState)).headers.map
        Header.headerWidth
      = [some 85, some 85] ∧
    ¬ ((100 : ℚ) = 85) := by
  refine ⟨?_, ?_, by norm_num⟩
  · norm_num [adjustAllHeaders, dupState, dupHeaderA, dupHeaderB, noteHeader,
      defaultSettings, dupMeasure, headerEligible, isIgnoredHeader,
      adjustHeader, headerNewWidth, mapGet, getHeaderKey, applyWidth,
      buildCache, cacheStep, mapSet, calculateHeaderWidth, measureTextWidth]
  · norm_num [adjustAllHeaders, dupState, dupHeaderA, dupHeaderB, noteHeader,
      defaultSettings, dupMeasure, headerEligible, isIgnoredHeader,
      adjustHeader, headerNewWidth, mapGet, getHeaderKey, applyWidth,
      buildCache, cacheStep, mapSet, calculateHeaderWidth, measureTextWidth]

/-- Helper: the cache rebuild skips exactly the ignored headers. -/
lemma foldl_cacheStep_filter (s : PluginSettings) (measure : String → ℚ)
    (c0 : List (String × ℚ)) :
    ∀ (hs : List Header) (acc : List (String × ℚ)),
      hs.foldl (cacheStep s measure c0) acc
        = (hs.filter (fun x => !isIgnoredHeader s x)).foldl
            (cacheStep s measure c0) acc := by
  intro hs
  induction hs with
  | nil => intro acc; rfl
  | cons h t ih =>
    intro acc
    rw [List.foldl_cons, List.filter_cons]
    cases hg : isIgnoredHeader s h with
    | true =>
      have hstep : cacheStep s measure c0 acc h = acc := by
        simp [cacheStep, hg]
      simp only [hg, Bool.not_true, Bool.false_eq_true, if_false, hstep, ih]
    | false =>
      simp only [hg, Bool.not_false, if_true, List.foldl_cons, ih]

/-- C10: a recalculation pass strips the autofit classes and the
--header-width property from every ignored (pinned under
ignorePinnedTabs, webviewer under ignoreWebLinks) header and assigns it
no width; the rebuilt cache receives contributions only from non-ignored
headers; and a header that is neither pinned nor a webviewer is adjusted
exactly as it would be with both ignore flags disabled. -/
theorem ignored_tabs_cleared (s : PluginSettings) (measure : String → ℚ)
    (cache c0 : List (String × ℚ)) (hs : List Header) (h g : Header)
    (b1 b2 : Bool) (hig : isIgnoredHeader s h = true)
    (hgp : g.isPinned = false) (hgw : g.isWebviewer = false) :
    adjustHeader s measure cache h
        = { h with
              autofitTab := false
              autofitMaxWidth := false
              headerWidth := none } ∧
      buildCache s measure c0 hs
        = buildCache s measure c0 (hs.filter (fun x => !isIgnoredHeader s x)) ∧
      adjustHeader { s with ignorePinnedTabs := b1, ignoreWebLinks := b2 }
          measure cache g
        = adjustHeader { s with ignorePinnedTabs := false, ignoreWebLinks := false }
            measure cache g := by
  refine ⟨by simp [adjustHeader, hig], foldl_cacheStep_filter s measure c0 hs [], ?_⟩
  have h1 : isIgnoredHeader
      { s with ignorePinnedTabs := b1, ignoreWebLinks := b2 } g = false := by
    simp [isIgnoredHeader, hgp, hgw]
  have h2 : isIgnoredHeader
      { s with ignorePinnedTabs := false, ignoreWebLinks := false } g = false := by
    simp [isIgnoredHeader, hgp, hgw]
  rw [adjustHeader_not_ignored_eq _ measure cache g h1,
    adjustHeader_not_ignored_eq _ measure cache g h2]
  have hw : headerNewWidth { s with ignorePinnedTabs := b1, ignoreWebLinks := b2 }
      measure cache g
      = headerNewWidth { s with ignorePinnedTabs := false, ignoreWebLinks := false }
          measure cache g := by
    have hcw : calculateHeaderWidth
        { s with ignorePinnedTabs := b1, ignoreWebLinks := b2 } measure g
        = calculateHeaderWidth
            { s with ignorePinnedTabs := false, ignoreWebLinks := false } measure g := by
      rcases hgt : g.title? with _ | t <;> simp [calculateHeaderWidth, hgt]
    unfold headerNewWidth
    rw [hcw]
  rw [hw]
  simp [applyWidth]

/-- Settings with the ignore-pinned-tabs option enabled. -/
def pinSettings : PluginSettings :=
  { defaultSettings with ignorePinnedTabs := true }

/-- A pinned tab header titled "Pinned" previously adjusted to 105 px. -/
def pinnedHeader : Header :=
  { noteHeader with
      title? := some "Pinned"
      isPinned := true
      autofitTab := true
      headerWidth := some 105 }

theorem ignored_tabs_cleared_witness :
    adjustHeader pinSettings (fun _ => 30) [] pinnedHeader
        = { pinnedHeader with
              autofitTab := false
              autofitMaxWidth := false
              headerWidth := none } ∧
      buildCache pinSettings (fun _ => 30) [] [pinnedHeader, noteHeader]
        = buildCache pinSettings (fun _ => 30) []
            ([pinnedHeader, noteHeader].filter
              (fun x => !isIgnoredHeader pinSettings x)) ∧
      adjustHeader { pinSettings with ignorePinnedTabs := true, ignoreWebLinks := false }
          (fun _ => 30) [] noteHeader
        = adjustHeader
            { pinSettings with ignorePinnedTabs := false, ignoreWebLinks := false }
            (fun _ => 30) [] noteHeader :=
  ignored_tabs_cleared pinSettings (fun _ => 30) [] [] [pinnedHeader, noteHeader]
    pinnedHeader noteHeader true false
    (by simp [isIgnoredHeader, pinSettings, defaultSettings, pinnedHeader, noteHeader])
    (by simp [noteHeader]) (by simp [noteHeader])
